import Mathlib

/-!
Shallow embedding of the chunked-document pagination core of the
books-army-service-bot repository
(`src/resources/books/books.service.ts`, with its DTOs and the
spec's ChunkSplitter contract).  Repositories (TypeORM) are modelled as
lists of records inside an explicit state, the cache-manager as an
association list from string keys to chunk snapshots, and each service
method as a state-passing function.  External calls that can fail at
runtime (store reads/writes issued with `await`) are driven by an
explicit `Oracle` of failure flags, and side effects that the claims
inspect (cache writes with their TTL argument, last-read-index updates)
are recorded in a trace.
-/

/-- A user record as used by the books service: the owner's api key, the
language code relation loaded with `book.user`, and the per-user chunk
size passed to `splitEveryN` in `createBook`. -/
structure UserR where
  apiKey : String
  languageCode : String
  chunkSize : Nat
  deriving DecidableEq, Repr

/-- A row of the `Book` entity with the fields the service reads or
writes: `totalIndex` as stored by `createBook`, the mutable `lastIndex`,
and the loaded `user` relation.  The initial `lastIndex` of a fresh row
is modelled from the spec (§3: `lastReadIndex` is 0-based) as 0, since
the entity definitions are not part of the sources. -/
structure Book where
  id : Nat
  title : String
  author : String
  totalIndex : Int
  lastIndex : Int
  user : UserR
  deriving DecidableEq, Repr

/-- A row of the `BooksChunk` entity: the owning book's id, the chunk
index and the chunk text. -/
structure BooksChunk where
  bookId : Nat
  index : Int
  text : String
  deriving DecidableEq, Repr

/-- A `BooksChunk` together with its loaded `book` (and `book.user`)
relations, as returned by `bookChunkRepository.findOne` with
`relations: [book, book.user]` and as stored in the cache. -/
structure ChunkWithBook where
  chunk : BooksChunk
  book : Book
  deriving DecidableEq, Repr

/-- One cache-manager entry: the string key, the cached chunk snapshot
and the TTL argument that was passed to `set` (`none` when `set` was
called without a TTL, so that the cache's own default applies). -/
structure CacheEntry where
  key : String
  value : ChunkWithBook
  ttl : Option Nat
  deriving DecidableEq, Repr

/-- The persistent-plus-cache state the books service operates on: the
`Book` repository, the `BooksChunk` repository and the cache manager's
entries. -/
structure St where
  books : List Book
  chunks : List BooksChunk
  cache : List CacheEntry
  deriving DecidableEq, Repr

/-- Payload of `createBook` (`CreateBookDto`): title, author, the raw
book text and the owning user. -/
structure CreateBookDto where
  title : String
  author : String
  bookText : String
  user : UserR
  deriving DecidableEq, Repr

/-- The page view (`GetChunkDto`) returned by `getPageByBookId`. -/
structure GetChunkDto where
  text : String
  title : String
  bookId : Nat
  currentPage : Int
  totalPage : Int
  userLanguageCode : String
  deriving DecidableEq, Repr

/-- A JavaScript number as far as the service's arithmetic needs it:
a finite value (kept exact as a rational, which is faithful for the
divisions the service performs as far as finiteness is concerned),
positive or negative infinity, or NaN. -/
inductive JsNum where
  | num : ℚ → JsNum
  | posInf : JsNum
  | negInf : JsNum
  | nan : JsNum
  deriving DecidableEq, Repr

/-- Whether a `JsNum` is a finite number. -/
def JsNum.isFinite : JsNum → Bool
  | .num _ => true
  | _ => false

/-- JavaScript division of two integer-valued numbers: division by zero
yields NaN for `0 / 0` and a signed infinity otherwise; any other case
is the exact quotient. -/
def jsDiv (a b : Int) : JsNum :=
  if b = 0 then
    if a = 0 then .nan else if 0 < a then .posInf else .negInf
  else .num ((a : ℚ) / (b : ℚ))

/-- `Math.round`: rounds a finite value half-up (`⌊x + 1/2⌋`), and is
the identity on NaN and the infinities. -/
def jsRound : JsNum → JsNum
  | .num q => .num (⌊q + 1/2⌋ : ℤ)
  | x => x

/-- The percent expression `Math.round((100 * lastIndex) / totalIndex)`
that both `getAll` (line 208) and `getBookById` (line 260) interpolate
into the string `"<n> %"`; the numeric value is modelled. -/
def percentValue (lastIndex totalIndex : Int) : JsNum :=
  jsRound (jsDiv (100 * lastIndex) totalIndex)

/-- The result of a JavaScript global regex replace of `/.txt/g` by the
empty string on a character list: `.` matches any single character, so
each non-overlapping match is one arbitrary character followed by
`txt`; matches are found left to right and scanning resumes after each
match. -/
def stripTxtMatches : List Char → List Char
  | _ :: 't' :: 'x' :: 't' :: rest => stripTxtMatches rest
  | a :: rest => a :: stripTxtMatches rest
  | [] => []

/-- `title.replace(/.txt/g, '')` as used by `getAll` and `getBookById`. -/
def replaceDotTxt (s : String) : String :=
  String.mk (stripTxtMatches s.data)

/-- Splits a character list into consecutive slices of `k + 1`
characters (the last slice holding the remainder), recursing on a fuel
bound so that the definition is structurally recursive; every step
consumes at least one character, so any fuel of at least the list's
length gives the intended splitting. -/
def chunksAuxFuel : Nat → Nat → List Char → List (List Char)
  | _, _, [] => []
  | 0, _, _ => []
  | fuel + 1, k, c :: cs =>
    (c :: cs).take (k + 1) :: chunksAuxFuel fuel k ((c :: cs).drop (k + 1))

/-- Splits a character list into consecutive slices of `k + 1`
characters, the last slice holding the remainder. -/
def chunksAux (k : Nat) (l : List Char) : List (List Char) :=
  chunksAuxFuel l.length k l

/-- One item of the splitter's output: the chunk text and its index. -/
structure SplitItem where
  chunk : String
  index : Nat
  deriving DecidableEq, Repr

/-- The splitter's result: the indexed chunks and the `totalIndex`
field destructured by `createBook`. -/
structure SplitResult where
  chunks : List SplitItem
  totalIndex : Nat
  deriving DecidableEq, Repr

/-- Modelled from the spec: `splitEveryN` lives in `@core/utils`, which
is not among the sources; §4.1 of the spec defines its contract.  The
text is split into consecutive non-overlapping substrings of exactly
`chunkSize` characters except the final chunk, which holds the
remainder; indices start at 0 and increment by 1 with no gaps; the
total chunk count is `⌈len / chunkSize⌉`; an empty text produces
exactly one chunk containing the empty string; `chunkSize ≤ 0` is a
usage error.  The `totalIndex` field destructured by `createBook` is
the total chunk count (the reading the spec's §4.1 count contract and
the claims' wording give it). -/
def splitEveryN (text : String) (n : Nat) : Except Unit SplitResult :=
  if n = 0 then .error ()
  else
    let raw := chunksAux (n - 1) text.data
    let rawNE := if raw.isEmpty then [[]] else raw
    .ok
      { chunks := rawNE.enum.map (fun p => { chunk := String.mk p.2, index := p.1 }),
        totalIndex := rawNE.length }

/-- Looks up a cache key, returning the cached chunk snapshot
(`cacheManager.get`). -/
def cacheGet (cache : List CacheEntry) (key : String) : Option ChunkWithBook :=
  (cache.find? (fun e => e.key == key)).map (fun e => e.value)

/-- Stores a value under a key, overwriting any previous entry for the
same key, remembering the TTL argument (`cacheManager.set`). -/
def cacheSet (cache : List CacheEntry) (key : String) (v : ChunkWithBook)
    (ttl : Option Nat) : List CacheEntry :=
  { key := key, value := v, ttl := ttl } :: cache.filter (fun e => e.key != key)

/-- The cache key `page_${id}_${page}` built by `getPageByBookId`. -/
def cacheKey (id : Nat) (page : Int) : String :=
  "page_" ++ toString id ++ "_" ++ toString page

/-- The query `bookChunkRepository.findOne({ where: { book: { id, user:
{ apiKey } }, index: page }, relations: [book, book.user] })` used both
on the main read path of `getPageByBookId` (lines 84–95) and by the
private `getChunk` (lines 346–359): a chunk row of the given book at
the given index, joined to a book row owned by the caller's api key. -/
def bookChunkFindOne (st : St) (id : Nat) (page : Int) (apiKey : String) :
    Option ChunkWithBook :=
  match st.chunks.find? (fun c => c.bookId == id && c.index == page) with
  | none => none
  | some c =>
    match st.books.find? (fun b => b.id == id && b.user.apiKey == apiKey) with
    | none => none
    | some b => some { chunk := c, book := b }

/-- The private `getChunk(id, page, apiKey)` of the books service. -/
def getChunk (st : St) (id : Nat) (page : Int) (apiKey : String) :
    Option ChunkWithBook :=
  bookChunkFindOne st id page apiKey

/-- `bookRepository.update(id, { lastIndex: page })`: sets `lastIndex`
on every book row with the given id (the update is keyed by id only,
not scoped by api key). -/
def updateLastIndexFn (books : List Book) (id : Nat) (page : Int) : List Book :=
  books.map (fun b => if b.id == id then { b with lastIndex := page } else b)

/-- Failure flags for the external calls `getPageByBookId` awaits or
fires: the main store read, the two (not-awaited) cache writes, the
last-index update and the read-ahead store read. -/
structure Oracle where
  mainFindFails : Bool
  mainCacheSetFails : Bool
  updateFails : Bool
  nextFindFails : Bool
  nextCacheSetFails : Bool
  deriving DecidableEq, Repr

/-- The oracle under which every external call succeeds. -/
def allOk : Oracle :=
  { mainFindFails := false, mainCacheSetFails := false, updateFails := false,
    nextFindFails := false, nextCacheSetFails := false }

/-- Side effects recorded while running `getPageByBookId`: an attempted
`bookRepository.update` of the last index, and an attempted
`cacheManager.set` with the TTL argument it was given. -/
inductive Effect where
  | updateLastIndex : Nat → Int → Effect
  | cacheSetEff : String → Option Nat → Effect
  deriving DecidableEq, Repr

instance {ε α : Type} [DecidableEq ε] [DecidableEq α] : DecidableEq (Except ε α) :=
  fun a b =>
    match a, b with
    | .ok x, .ok y =>
      if h : x = y then isTrue (by rw [h]) else isFalse (by intro he; cases he; exact h rfl)
    | .error x, .error y =>
      if h : x = y then isTrue (by rw [h]) else isFalse (by intro he; cases he; exact h rfl)
    | .ok _, .error _ => isFalse (by intro he; cases he)
    | .error _, .ok _ => isFalse (by intro he; cases he)

/-- Outcome of one `getPageByBookId` run: the returned value (or an
error when an awaited call rejected), the final state, and the trace of
attempted side effects. -/
structure RunResult where
  res : Except Unit (Option GetChunkDto)
  st : St
  trace : List Effect
  deriving DecidableEq, Repr

/-- The `GetChunkDto` built at lines 124–131 from the resolved chunk
snapshot and the requested page. -/
def mkDto (c : ChunkWithBook) (page : Int) : GetChunkDto :=
  { text := c.chunk.text, title := c.book.title, bookId := c.book.id,
    currentPage := page, totalPage := c.book.totalIndex,
    userLanguageCode := c.book.user.languageCode }

/-- Lines 112–131 of `getPageByBookId`: read-ahead of `page + 1`
(cache check, store fetch on miss — awaited, so its failure rejects the
whole call — and a not-awaited cache `set` without a TTL argument),
then the `GetChunkDto` for the already-resolved chunk is returned. -/
def prefetchStep (o : Oracle) (st : St) (id : Nat) (page : Int) (apiKey : String)
    (c : ChunkWithBook) (tr : List Effect) : RunResult :=
  let nkey := cacheKey id (page + 1)
  match cacheGet st.cache nkey with
  | some _ => { res := .ok (some (mkDto c page)), st := st, trace := tr }
  | none =>
    if o.nextFindFails then { res := .error (), st := st, trace := tr }
    else
      match getChunk st id (page + 1) apiKey with
      | none => { res := .ok (some (mkDto c page)), st := st, trace := tr }
      | some nc =>
        let tr1 := tr ++ [Effect.cacheSetEff nkey none]
        let st1 :=
          if o.nextCacheSetFails then st
          else { st with cache := cacheSet st.cache nkey nc none }
        { res := .ok (some (mkDto c page)), st := st1, trace := tr1 }

/-- Lines 106–131 of `getPageByBookId`: once a chunk is resolved, the
last-index update is issued (awaited, without a catch, so its failure
rejects the call) when the requested page differs from the `lastIndex`
on the chunk's book snapshot and `saveCurrentPage` is set; then the
read-ahead runs and the page view is returned. -/
def afterChunk (o : Oracle) (st : St) (id : Nat) (page : Int) (apiKey : String)
    (saveCurrentPage : Bool) (c : ChunkWithBook) (tr : List Effect) : RunResult :=
  if page ≠ c.book.lastIndex ∧ saveCurrentPage then
    let tr1 := tr ++ [Effect.updateLastIndex id page]
    if o.updateFails then { res := .error (), st := st, trace := tr1 }
    else
      prefetchStep o { st with books := updateLastIndexFn st.books id page }
        id page apiKey c tr1
  else prefetchStep o st id page apiKey c tr

/-- `getPageByBookId(id, page, apiKey, saveCurrentPage)` (lines
73–132): the cache is consulted under `page_${id}_${page}` with no
owner scoping; on a miss the chunk is fetched from the store scoped to
the caller's api key and, if found, written to the cache with an
explicit TTL of 3600 (the `set` is not awaited); if no chunk was
resolved the call returns `null`; otherwise the last-index update and
the read-ahead run and the page view is returned. -/
def getPageByBookId (o : Oracle) (st : St) (id : Nat) (page : Int)
    (apiKey : String) (saveCurrentPage : Bool) : RunResult :=
  let key := cacheKey id page
  match cacheGet st.cache key with
  | some chunk => afterChunk o st id page apiKey saveCurrentPage chunk []
  | none =>
    if o.mainFindFails then { res := .error (), st := st, trace := [] }
    else
      match bookChunkFindOne st id page apiKey with
      | none => { res := .ok none, st := st, trace := [] }
      | some chunk =>
        let tr := [Effect.cacheSetEff key (some 3600)]
        let st1 :=
          if o.mainCacheSetFails then st
          else { st with cache := cacheSet st.cache key chunk (some 3600) }
        afterChunk o st1 id page apiKey saveCurrentPage chunk tr

/-- The book row inserted by `createBook` (lines 51–56): the stored
`totalIndex` is the splitter's `totalIndex` minus one. -/
def mkBook (p : CreateBookDto) (newId : Nat) (splitTotalIndex : Nat) : Book :=
  { id := newId, title := p.title, author := p.author,
    totalIndex := (splitTotalIndex : Int) - 1, lastIndex := 0, user := p.user }

/-- `createBook(payload)` (lines 45–71): the text is split, the book
row is inserted (the store assigns `newId`), and then — as a second,
separate, awaited insert with no surrounding transaction — the chunk
rows are inserted.  `chunkInsertOk` models whether that second insert
succeeds; when it fails the error propagates and the already-inserted
book row remains. -/
def createBook (st : St) (p : CreateBookDto) (newId : Nat)
    (chunkInsertOk : Bool) : Except Unit Nat × St :=
  match splitEveryN p.bookText p.user.chunkSize with
  | .error _ => (.error (), st)
  | .ok r =>
    let st1 := { st with books := st.books ++ [mkBook p newId r.totalIndex] }
    if chunkInsertOk then
      let newChunks := r.chunks.map
        (fun it => { bookId := newId, index := (it.index : Int), text := it.chunk : BooksChunk })
      (.ok newId, { st1 with chunks := st.chunks ++ newChunks })
    else (.error (), st1)

/-- `deleteBookById(id, apiKey)` (lines 265–309): the book is looked up
scoped to the caller's api key; when absent, `{ book: null, result:
false }`; otherwise the chunk rows and the book row are deleted
(`deleteOk` models the try/catch: on a caught error the method returns
`result: false`).  The cache manager is never touched. -/
def deleteBookById (st : St) (id : Nat) (apiKey : String) (deleteOk : Bool) :
    (Option Book × Bool) × St :=
  match st.books.find? (fun b => b.id == id && b.user.apiKey == apiKey) with
  | none => ((none, false), st)
  | some book =>
    if deleteOk then
      ((some book, true),
        { st with
          chunks := st.chunks.filter (fun c => !(c.bookId == id)),
          books := st.books.filter (fun b => !(b.id == book.id)) })
    else ((some book, false), st)

/-- The `GetBookDto` built by `getAll` and `getBookById`. -/
structure GetBookDto where
  id : Nat
  index : Option Nat
  title : String
  author : String
  begginLink : String
  continousLink : String
  currentPage : Int
  totalPage : Int
  fileName : Option String
  percent : JsNum
  begginText : Option String
  continousText : Option String
  deriving DecidableEq, Repr

/-- `getBookById(id, apiKey)` (lines 237–263): the book is looked up
scoped to the api key; when found, the dto is built (with the percent
expression of line 260); when not, the method falls through and returns
`undefined`, modelled as `none`.  `appUrl` stands for the injected
config value. -/
def getBookById (appUrl : String) (st : St) (id : Nat) (apiKey : String) :
    Option GetBookDto :=
  match st.books.find? (fun b => b.id == id && b.user.apiKey == apiKey) with
  | none => none
  | some book =>
    some
      { id := book.id, index := none,
        title := replaceDotTxt book.title, author := book.author,
        begginLink := appUrl ++ "/r/" ++ toString book.id ++ "/1?k=" ++ apiKey,
        continousLink := appUrl ++ "/r/" ++ toString book.id ++ "/"
          ++ toString book.lastIndex ++ "?k=" ++ apiKey,
        currentPage := book.lastIndex, totalPage := book.totalIndex,
        fileName := some book.title,
        percent := percentValue book.lastIndex book.totalIndex,
        begginText := none, continousText := none }

/-- The loop body of `getAll` (lines 197–212): the dto pushed for one
book of the caller's page of results, with the percent expression of
line 208.  The pagination, ordering and localized texts of `getAll`
involve collaborators outside the claims and are passed in (`beggin`,
`continous`) or given as the loop data (`idx`, `skip`). -/
def getAllEntry (appUrl apiKey : String) (skip idx : Nat)
    (beggin continous : String) (book : Book) : GetBookDto :=
  { id := book.id, index := some (idx + skip + 1),
    title := replaceDotTxt book.title, author := book.author,
    begginLink := appUrl ++ "/r/" ++ toString book.id ++ "/1?k=" ++ apiKey,
    continousLink := appUrl ++ "/r/" ++ toString book.id ++ "/"
      ++ toString book.lastIndex ++ "?k=" ++ apiKey,
    currentPage := book.lastIndex, totalPage := book.totalIndex,
    fileName := none,
    percent := percentValue book.lastIndex book.totalIndex,
    begginText := some beggin, continousText := some continous }

/-! ## Concrete fixtures

The spec's concrete scenario: a user with chunk size 3 uploads the
10-character text `ABCDEFGHIJ`, giving the chunks `ABC`, `DEF`, `GHI`,
`J`. -/

/-- The demo owner: api key `owner-key`, chunk size 3. -/
def demoUser : UserR := { apiKey := "owner-key", languageCode := "en", chunkSize := 3 }

/-- The demo upload payload with text `ABCDEFGHIJ`. -/
def demoPayload : CreateBookDto :=
  { title := "demo.txt", author := "a", bookText := "ABCDEFGHIJ", user := demoUser }

/-- The empty initial state. -/
def st0 : St := { books := [], chunks := [], cache := [] }

/-- The state after the demo text has been ingested as book 1. -/
def stIngested : St := (createBook st0 demoPayload 1 true).2

/-- The page view the embedded service actually returns for page 2 of
the ingested demo book (its `totalPage` is the stored `totalIndex`,
which is the chunk count minus one). -/
def dtoGHI : GetChunkDto :=
  { text := "GHI", title := "demo.txt", bookId := 1, currentPage := 2,
    totalPage := 3, userLanguageCode := "en" }

/-- The state after the owner has read page 2 of the demo book, which
warms the cache entries for pages 2 and 3. -/
def stWarm : St := (getPageByBookId allOk stIngested 1 2 "owner-key" true).st

/-- The oracle under which the read-ahead store fetch rejects. -/
def oNextFail : Oracle := { allOk with nextFindFails := true }

/-- The oracle under which the read-ahead cache write rejects. -/
def oNextSetFail : Oracle := { allOk with nextCacheSetFails := true }

/-- The oracle under which the last-index update rejects. -/
def oUpdFail : Oracle := { allOk with updateFails := true }

/-! ## Counterexamples -/

/-- C1 counterexample: for the spec's concrete scenario (text
`ABCDEFGHIJ`, chunk size 3, hence 4 chunks), `getPageByBookId(doc, 2,
ownerKey)` does return text `GHI`, but its `totalPage` is 3 — the
stored `totalIndex` is the splitter's count minus one — not the chunk
count 4 the claim states. -/
theorem c1_totalPage_counterexample :
    (getPageByBookId allOk stIngested 1 2 "owner-key" true).res = .ok (some dtoGHI) ∧
    dtoGHI.text = "GHI" ∧ dtoGHI.totalPage = 3 ∧ dtoGHI.totalPage ≠ 4 := by
  decide

/-- C2 counterexample: after the owner's read has populated the cache
entry for page 2 of book 1, a caller whose api key `intruder` owns no
book at all still receives the full page view from the cache — not the
not-found result the claim states — because the cache key carries no
owner scoping. -/
theorem c2_cache_bypasses_owner_counterexample :
    (∀ b ∈ stWarm.books, b.user.apiKey ≠ "intruder") ∧
    (getPageByBookId allOk stWarm 1 2 "intruder" true).res = .ok (some dtoGHI) := by
  decide

/-- C3 counterexample: deleting book 1 succeeds, yet a subsequent
`getPageByBookId` for its page 2 still returns the full page view,
because the cache entry populated before the deletion is never
invalidated — `deleteBookById` does not touch the cache manager. -/
theorem c3_stale_cache_counterexample :
    (deleteBookById stWarm 1 "owner-key" true).1.2 = true ∧
    (getPageByBookId allOk (deleteBookById stWarm 1 "owner-key" true).2
        1 2 "owner-key" true).res = .ok (some dtoGHI) := by
  decide

/-- C4 counterexample: when the chunk insert of `createBook` fails, the
call errors, yet the book row inserted by the preceding separate insert
remains, with no chunks at all — and `getBookById` can already observe
the chunkless document. -/
theorem c4_partial_ingest_counterexample :
    (createBook st0 demoPayload 1 false).1 = .error () ∧
    (createBook st0 demoPayload 1 false).2.chunks = [] ∧
    (getBookById "https://app" (createBook st0 demoPayload 1 false).2
        1 "owner-key").isSome = true := by
  decide

/-- C5 counterexample: the requested page 2 of the ingested demo book is
found (the all-ok run returns it), but when the awaited read-ahead store
fetch of page 3 rejects, the whole call rejects instead of returning the
page view — the prefetch error is not swallowed. -/
theorem c5_prefetch_error_counterexample :
    (getPageByBookId allOk stIngested 1 2 "owner-key" true).res = .ok (some dtoGHI) ∧
    (getPageByBookId oNextFail stIngested 1 2 "owner-key" true).res = .error () := by
  decide

/-- C6 counterexample: reading page 2 with `saveCurrentPage` on and a
differing stored last index attempts the last-index update (it appears
in the trace), but when that update rejects the whole call rejects — the
page view is not returned. -/
theorem c6_update_failure_counterexample :
    Effect.updateLastIndex 1 2 ∈ (getPageByBookId oUpdFail stIngested 1 2 "owner-key" true).trace ∧
    (getPageByBookId oUpdFail stIngested 1 2 "owner-key" true).res = .error () := by
  decide

/-! ## Helper lemmas about the read path -/

/-- The scoped store query returns nothing when the caller's api key does
not match any book with the requested id. -/
theorem bookChunkFindOne_eq_none_of_no_owner (st : St) (id : Nat) (page : Int)
    (apiKey : String) (howner : ∀ b ∈ st.books, b.id = id → b.user.apiKey ≠ apiKey) :
    bookChunkFindOne st id page apiKey = none := by
  unfold bookChunkFindOne
  cases hfc : st.chunks.find? (fun c => c.bookId == id && c.index == page) with
  | none => rfl
  | some c =>
    have hb : st.books.find? (fun b => b.id == id && b.user.apiKey == apiKey) = none := by
      rw [List.find?_eq_none]
      intro b hb
      simp only [Bool.and_eq_true, beq_iff_eq, not_and]
      intro hid hk
      exact howner b hb hid hk
    simp [hb]

/-- The scoped store query returns nothing when no chunk row matches the
requested book id and index. -/
theorem bookChunkFindOne_eq_none_of_no_chunk (st : St) (id : Nat) (page : Int)
    (apiKey : String) (hch : ∀ c ∈ st.chunks, ¬(c.bookId = id ∧ c.index = page)) :
    bookChunkFindOne st id page apiKey = none := by
  unfold bookChunkFindOne
  have hfc : st.chunks.find? (fun c => c.bookId == id && c.index == page) = none := by
    rw [List.find?_eq_none]
    intro c hc
    simp only [Bool.and_eq_true, beq_iff_eq]
    exact hch c hc
  simp [hfc]

/-- A cache miss followed by an empty store result makes
`getPageByBookId` return `null`. -/
theorem getPageByBookId_res_none (o : Oracle) (st : St) (id : Nat) (page : Int)
    (apiKey : String) (save : Bool)
    (hmiss : cacheGet st.cache (cacheKey id page) = none)
    (hfind : o.mainFindFails = false)
    (hnone : bookChunkFindOne st id page apiKey = none) :
    (getPageByBookId o st id page apiKey save).res = .ok none := by
  unfold getPageByBookId
  simp only [hmiss, hfind, hnone, if_false, Bool.false_eq_true]

/-- When the read-ahead store fetch does not reject, the prefetch step
returns the page view for the already-resolved chunk. -/
theorem prefetchStep_res_ok (o : Oracle) (st : St) (id : Nat) (page : Int)
    (apiKey : String) (c : ChunkWithBook) (tr : List Effect)
    (hnext : o.nextFindFails = false) :
    (prefetchStep o st id page apiKey c tr).res = .ok (some (mkDto c page)) := by
  unfold prefetchStep
  cases hcg : cacheGet st.cache (cacheKey id (page + 1)) with
  | some v => simp only [hcg]
  | none =>
    simp only [hcg, hnext, Bool.false_eq_true, if_false]
    cases hgc : getChunk st id (page + 1) apiKey with
    | none => simp only [hgc]
    | some nc => simp only [hgc]

/-- When the read-ahead cache entry is missing and the awaited store
fetch of the next page rejects, the whole call rejects. -/
theorem prefetchStep_res_error (o : Oracle) (st : St) (id : Nat) (page : Int)
    (apiKey : String) (c : ChunkWithBook) (tr : List Effect)
    (hnext : o.nextFindFails = true)
    (hmiss : cacheGet st.cache (cacheKey id (page + 1)) = none) :
    (prefetchStep o st id page apiKey c tr).res = .error () := by
  unfold prefetchStep
  simp only [hmiss, hnext, if_true]

/-- The prefetch step only ever appends a TTL-less cache write for the
next page's key to the trace. -/
theorem prefetchStep_trace_extra (o : Oracle) (st : St) (id : Nat) (page : Int)
    (apiKey : String) (c : ChunkWithBook) (tr : List Effect) :
    ∃ extra, (prefetchStep o st id page apiKey c tr).trace = tr ++ extra ∧
      ∀ e ∈ extra, e = Effect.cacheSetEff (cacheKey id (page + 1)) none := by
  unfold prefetchStep
  cases hcg : cacheGet st.cache (cacheKey id (page + 1)) with
  | some v => exact ⟨[], by simp [hcg]⟩
  | none =>
    cases hf : o.nextFindFails with
    | true => exact ⟨[], by simp [hcg, hf]⟩
    | false =>
      cases hgc : getChunk st id (page + 1) apiKey with
      | none => exact ⟨[], by simp [hcg, hf, hgc]⟩
      | some nc =>
        exact ⟨[Effect.cacheSetEff (cacheKey id (page + 1)) none],
          by simp [hcg, hf, hgc]⟩

/-- With a non-failing update and next fetch, the tail of
`getPageByBookId` returns the page view of the resolved chunk. -/
theorem afterChunk_res_ok (o : Oracle) (st : St) (id : Nat) (page : Int)
    (apiKey : String) (save : Bool) (c : ChunkWithBook) (tr : List Effect)
    (hupd : o.updateFails = false) (hnext : o.nextFindFails = false) :
    (afterChunk o st id page apiKey save c tr).res = .ok (some (mkDto c page)) := by
  unfold afterChunk
  split
  · simp only [hupd, Bool.false_eq_true, if_false]
    exact prefetchStep_res_ok o _ id page apiKey c _ hnext
  · exact prefetchStep_res_ok o _ id page apiKey c _ hnext

/-- A rejection of the awaited next-page fetch makes the tail of
`getPageByBookId` reject. -/
theorem afterChunk_res_error_next (o : Oracle) (st : St) (id : Nat) (page : Int)
    (apiKey : String) (save : Bool) (c : ChunkWithBook) (tr : List Effect)
    (hupd : o.updateFails = false) (hnext : o.nextFindFails = true)
    (hmiss : cacheGet st.cache (cacheKey id (page + 1)) = none) :
    (afterChunk o st id page apiKey save c tr).res = .error () := by
  unfold afterChunk
  split
  · simp only [hupd, Bool.false_eq_true, if_false]
    exact prefetchStep_res_error o _ id page apiKey c _ hnext hmiss
  · exact prefetchStep_res_error o _ id page apiKey c _ hnext hmiss

/-- The tail of `getPageByBookId` only ever appends the last-index
update effect and the next page's TTL-less cache write to the trace. -/
theorem afterChunk_trace_extra (o : Oracle) (st : St) (id : Nat) (page : Int)
    (apiKey : String) (save : Bool) (c : ChunkWithBook) (tr : List Effect) :
    ∃ extra, (afterChunk o st id page apiKey save c tr).trace = tr ++ extra ∧
      ∀ e ∈ extra, e = Effect.updateLastIndex id page ∨
        e = Effect.cacheSetEff (cacheKey id (page + 1)) none := by
  unfold afterChunk
  split
  · cases hu : o.updateFails with
    | true =>
      simp only [hu, if_true]
      exact ⟨[Effect.updateLastIndex id page], by simp⟩
    | false =>
      simp only [hu, Bool.false_eq_true, if_false]
      obtain ⟨extra, he, hex⟩ := prefetchStep_trace_extra o
        { st with books := updateLastIndexFn st.books id page } id page apiKey c
        (tr ++ [Effect.updateLastIndex id page])
      refine ⟨[Effect.updateLastIndex id page] ++ extra, by simp [he], ?_⟩
      intro e hmem
      rcases List.mem_append.mp hmem with h | h
      · simp only [List.mem_singleton] at h
        exact Or.inl h
      · exact Or.inr (hex e h)
  · obtain ⟨extra, he, hex⟩ := prefetchStep_trace_extra o st id page apiKey c tr
    exact ⟨extra, he, fun e hm => Or.inr (hex e hm)⟩

/-- On a cache hit the call continues with the cached snapshot. -/
theorem getPageByBookId_hit (o : Oracle) (st : St) (id : Nat) (page : Int)
    (k : String) (save : Bool) (c : ChunkWithBook)
    (hhit : cacheGet st.cache (cacheKey id page) = some c) :
    getPageByBookId o st id page k save = afterChunk o st id page k save c [] := by
  unfold getPageByBookId
  simp only [hhit]

/-- On a cache miss resolved from the store the call records the
explicit 3600-second cache write and continues with the fetched row. -/
theorem getPageByBookId_miss_found (o : Oracle) (st : St) (id : Nat) (page : Int)
    (k : String) (save : Bool) (c : ChunkWithBook)
    (hmiss : cacheGet st.cache (cacheKey id page) = none)
    (hfind : o.mainFindFails = false)
    (hfound : bookChunkFindOne st id page k = some c) :
    getPageByBookId o st id page k save =
      afterChunk o
        (if o.mainCacheSetFails then st
          else { st with cache := cacheSet st.cache (cacheKey id page) c (some 3600) })
        id page k save c [Effect.cacheSetEff (cacheKey id page) (some 3600)] := by
  unfold getPageByBookId
  simp only [hmiss, hfind, Bool.false_eq_true, if_false, hfound]

/-- When the requested page differs from the snapshot's last index and
progress saving is on, the update branch is taken. -/
theorem afterChunk_update_branch (o : Oracle) (st : St) (id : Nat) (page : Int)
    (k : String) (c : ChunkWithBook) (tr : List Effect)
    (hne : page ≠ c.book.lastIndex) :
    afterChunk o st id page k true c tr =
      (if o.updateFails then
        { res := .error (), st := st, trace := tr ++ [Effect.updateLastIndex id page] }
      else
        prefetchStep o { st with books := updateLastIndexFn st.books id page }
          id page k c (tr ++ [Effect.updateLastIndex id page])) := by
  unfold afterChunk
  rw [if_pos]
  exact ⟨hne, by trivial⟩

/-- When progress saving is off or the requested page equals the
snapshot's last index, no update is issued. -/
theorem afterChunk_skip_branch (o : Oracle) (st : St) (id : Nat) (page : Int)
    (k : String) (save : Bool) (c : ChunkWithBook) (tr : List Effect)
    (hskip : save = false ∨ page = c.book.lastIndex) :
    afterChunk o st id page k save c tr = prefetchStep o st id page k c tr := by
  unfold afterChunk
  rw [if_neg]
  rintro ⟨h1, h2⟩
  rcases hskip with h | h
  · rw [h] at h2
    simp at h2
  · exact h1 h

/-! ## Helper lemmas about the splitter -/

/-- Fuel-recursive splitting restores the input when flattened, given
enough fuel. -/
theorem chunksAuxFuel_flatten (k : Nat) :
    ∀ (fuel : Nat) (l : List Char), l.length ≤ fuel →
      (chunksAuxFuel fuel k l).flatten = l := by
  intro fuel
  induction fuel with
  | zero =>
    intro l hl
    cases l with
    | nil => rfl
    | cons c cs => simp at hl
  | succ n ih =>
    intro l hl
    cases l with
    | nil => rfl
    | cons c cs =>
      show ((c :: cs).take (k + 1) :: chunksAuxFuel n k ((c :: cs).drop (k + 1))).flatten = c :: cs
      rw [List.flatten_cons, ih ((c :: cs).drop (k + 1)) ?_, List.take_append_drop]
      simp only [List.length_drop, List.length_cons]
      simp only [List.length_cons] at hl
      omega

/-- The empty-text patch of the splitter flattens back to the input. -/
theorem rawNE_flatten (k : Nat) (l : List Char) :
    (if (chunksAux k l).isEmpty then [[]] else chunksAux k l).flatten = l := by
  cases l with
  | nil => rfl
  | cons c cs =>
    have hne : chunksAux k (c :: cs) =
        (c :: cs).take (k + 1) :: chunksAuxFuel cs.length k ((c :: cs).drop (k + 1)) := rfl
    rw [hne]
    simp only [List.isEmpty_cons, if_false, Bool.false_eq_true]
    rw [List.flatten_cons, chunksAuxFuel_flatten k cs.length ((c :: cs).drop (k + 1)) ?_,
      List.take_append_drop]
    simp only [List.length_drop, List.length_cons]
    omega

/-- Projecting the chunk text out of the enumerated items recovers the
plain chunk list. -/
theorem enumFrom_map_chunk :
    ∀ (m : List (List Char)) (n : Nat),
      (m.enumFrom n).map
        (fun p => ({ chunk := String.mk p.2, index := p.1 } : SplitItem).chunk) =
      m.map String.mk := by
  intro m
  induction m with
  | nil => intro n; rfl
  | cons a as ih =>
    intro n
    simp only [List.enumFrom_cons, List.map_cons]
    rw [ih]

/-- Joining strings made from character lists is making a string from
the flattened lists. -/
theorem join_map_mk (ls : List (List Char)) :
    String.join (ls.map String.mk) = String.mk ls.flatten := by
  rw [String.join_eq]
  congr 1
  rw [List.map_map]
  have h : (String.data ∘ String.mk) = (fun l : List Char => l) := rfl
  rw [h]
  simp

/-- The fuel-recursive splitter maps the empty list to the empty list at
every fuel. -/
theorem chunksAuxFuel_nil (fuel k : Nat) : chunksAuxFuel fuel k [] = [] := by
  cases fuel with
  | zero => rfl
  | succ n => rfl

/-- A text no longer than the chunk size splits into exactly one chunk:
the whole text at index 0, with `totalIndex` 1. -/
theorem splitEveryN_single (T : String) (S : Nat) (h0 : 0 < S) (hlen : T.length ≤ S) :
    splitEveryN T S = .ok { chunks := [{ chunk := T, index := 0 }], totalIndex := 1 } := by
  have hS : ¬ S = 0 := by omega
  have hlen2 : T.data.length ≤ S := hlen
  unfold splitEveryN
  rw [if_neg hS]
  have hraw : (if (chunksAux (S - 1) T.data).isEmpty then [[]] else chunksAux (S - 1) T.data) =
      [T.data] := by
    cases hT : T.data with
    | nil => rfl
    | cons c cs =>
      rw [hT] at hlen2
      have hk : S - 1 + 1 = S := by omega
      have hstep : chunksAux (S - 1) (c :: cs) =
          (c :: cs).take (S - 1 + 1) ::
            chunksAuxFuel cs.length (S - 1) ((c :: cs).drop (S - 1 + 1)) := rfl
      rw [hstep, hk, List.take_of_length_le hlen2, List.drop_of_length_le hlen2,
        chunksAuxFuel_nil]
      rfl
  simp only [hraw]
  rfl

/-- A zero divisor makes the percent expression non-finite (NaN for a
zero dividend, a signed infinity otherwise). -/
theorem percentValue_not_finite (li ti : Int) (hti : ti = 0) :
    (percentValue li ti).isFinite = false := by
  subst hti
  unfold percentValue jsDiv
  rw [if_pos rfl]
  by_cases h : (100 : Int) * li = 0
  · rw [if_pos h]
    rfl
  · rw [if_neg h]
    by_cases h2 : (0 : Int) < 100 * li
    · rw [if_pos h2]
      rfl
    · rw [if_neg h2]
      rfl

/-- The splitter's `totalIndex` equals its chunk count. -/
theorem splitEveryN_totalIndex_eq (T : String) (S : Nat) (r : SplitResult)
    (h : splitEveryN T S = .ok r) : r.totalIndex = r.chunks.length := by
  unfold splitEveryN at h
  by_cases hS : S = 0
  · rw [if_pos hS] at h
    cases h
  · rw [if_neg hS] at h
    simp only [] at h
    injection h with h
    rw [← h]
    simp [List.length_map, List.enum, List.enumFrom_length]

/-- Every position below the length of an enumerated-and-mapped list is
hit by an item carrying that index. -/
theorem exists_index_mem (m : List (List Char)) (j : Nat) (hj : j < m.length) :
    ∃ it ∈ m.enum.map (fun p => ({ chunk := String.mk p.2, index := p.1 } : SplitItem)),
      it.index = j := by
  have hget : m[j]? = some (m.get ⟨j, hj⟩) := by
    rw [List.getElem?_eq_getElem hj]
    rfl
  have hmem : (j, m.get ⟨j, hj⟩) ∈ m.enum := List.mk_mem_enum_iff_getElem?.mpr hget
  exact ⟨_, List.mem_map_of_mem _ hmem, rfl⟩

/-- Every index below the chunk count occurs among the splitter's
items. -/
theorem splitEveryN_exists_index (T : String) (S : Nat) (r : SplitResult) (j : Nat)
    (h : splitEveryN T S = .ok r) (hj : j < r.chunks.length) :
    ∃ it ∈ r.chunks, it.index = j := by
  unfold splitEveryN at h
  by_cases hS : S = 0
  · rw [if_pos hS] at h
    cases h
  · rw [if_neg hS] at h
    simp only [] at h
    injection h with h
    rw [← h] at hj ⊢
    apply exists_index_mem
    simpa [List.enum, List.enumFrom_length] using hj

/-- When both scoped lookups succeed after a cache miss, the call
returns the page view built from the found row and book. -/
theorem getPage_found_res (st1 : St) (id : Nat) (i : Int) (key : String) (save : Bool)
    (c : BooksChunk) (bk : Book)
    (hcache : cacheGet st1.cache (cacheKey id i) = none)
    (hfc : st1.chunks.find? (fun x => x.bookId == id && x.index == i) = some c)
    (hfb : st1.books.find? (fun b => b.id == id && b.user.apiKey == key) = some bk) :
    (getPageByBookId allOk st1 id i key save).res = .ok (some (mkDto ⟨c, bk⟩ i)) := by
  have hbcf : bookChunkFindOne st1 id i key = some ⟨c, bk⟩ := by
    unfold bookChunkFindOne
    rw [hfc, hfb]
  rw [getPageByBookId_miss_found allOk st1 id i key save ⟨c, bk⟩ hcache rfl hbcf]
  exact afterChunk_res_ok allOk _ id i key save _ _ rfl rfl

/-! ## Claim theorems -/

/-- C1 (amended): for every successfully ingested document, the page
view returned by `getPageByBookId` carries `totalPage` equal to the
chunk count minus one (the stored `totalIndex` is the splitter's count
minus one); in the spec's concrete scenario, `getPageByBookId(doc, 2,
ownerKey)` returns text `GHI` with `totalPage = 3`. -/
theorem c1_totalPage_is_chunkCount_pred (st : St) (p : CreateBookDto) (newId : Nat)
    (i : Int) (r : SplitResult)
    (hsplit : splitEveryN p.bookText p.user.chunkSize = .ok r)
    (hfreshB : ∀ b ∈ st.books, b.id ≠ newId)
    (_hfreshC : ∀ c ∈ st.chunks, c.bookId ≠ newId)
    (hcache : cacheGet st.cache (cacheKey newId i) = none)
    (hi0 : 0 ≤ i) (hilt : i < (r.chunks.length : Int)) :
    (∃ dto,
      (getPageByBookId allOk (createBook st p newId true).2 newId i p.user.apiKey true).res =
        .ok (some dto) ∧
      dto.totalPage = (r.chunks.length : Int) - 1 ∧
      dto.currentPage = i ∧ dto.bookId = newId) ∧
    (getPageByBookId allOk stIngested 1 2 "owner-key" true).res = .ok (some dtoGHI) := by
  have hcb : (createBook st p newId true).2 =
      { st with
        books := st.books ++ [mkBook p newId r.totalIndex],
        chunks := st.chunks ++ r.chunks.map
          (fun it => { bookId := newId, index := (it.index : Int), text := it.chunk }) } := by
    unfold createBook
    rw [hsplit]
    rfl
  constructor
  · have hj : i.toNat < r.chunks.length := by omega
    obtain ⟨it, hitmem, hidx⟩ :=
      splitEveryN_exists_index p.bookText p.user.chunkSize r i.toNat hsplit hj
    have hex : ∃ x, x ∈ st.chunks ++ r.chunks.map
        (fun it => ({ bookId := newId, index := (it.index : Int), text := it.chunk } : BooksChunk)) ∧
        (x.bookId == newId && x.index == i) = true := by
      refine ⟨{ bookId := newId, index := (it.index : Int), text := it.chunk }, ?_, ?_⟩
      · exact List.mem_append_right _ (List.mem_map_of_mem _ hitmem)
      · simp [hidx, Int.toNat_of_nonneg hi0]
    obtain ⟨c, hc⟩ := Option.isSome_iff_exists.mp (List.find?_isSome.mpr hex)
    have hfc : (createBook st p newId true).2.chunks.find?
        (fun x => x.bookId == newId && x.index == i) = some c := by
      rw [hcb]
      exact hc
    have hfb : (createBook st p newId true).2.books.find?
        (fun b => b.id == newId && b.user.apiKey == p.user.apiKey) =
        some (mkBook p newId r.totalIndex) := by
      rw [hcb]
      have h1 : st.books.find? (fun b => b.id == newId && b.user.apiKey == p.user.apiKey) = none := by
        rw [List.find?_eq_none]
        intro b hb
        simp only [Bool.and_eq_true, beq_iff_eq, not_and]
        intro hid
        exact absurd hid (hfreshB b hb)
      show (st.books ++ [mkBook p newId r.totalIndex]).find? _ = _
      rw [List.find?_append, h1]
      simp [mkBook]
    have hcache2 : cacheGet (createBook st p newId true).2.cache (cacheKey newId i) = none := by
      rw [hcb]
      exact hcache
    refine ⟨mkDto ⟨c, mkBook p newId r.totalIndex⟩ i, ?_, ?_, rfl, rfl⟩
    · exact getPage_found_res (createBook st p newId true).2 newId i p.user.apiKey true
        c (mkBook p newId r.totalIndex) hcache2 hfc hfb
    · show (mkBook p newId r.totalIndex).totalIndex = (r.chunks.length : Int) - 1
      rw [show (mkBook p newId r.totalIndex).totalIndex = (r.totalIndex : Int) - 1 from rfl]
      rw [splitEveryN_totalIndex_eq p.bookText p.user.chunkSize r hsplit]
  · decide

/-- C2 (amended): a caller whose api key does not identify the
document's owner gets `null` from `getPageByBookId` only when the cache
holds no entry for the requested page; the store lookup is the only
owner-scoped step. -/
theorem c2_not_found_without_cache_entry (st : St) (id : Nat) (i : Int) (k : String)
    (save : Bool)
    (hcache : cacheGet st.cache (cacheKey id i) = none)
    (howner : ∀ b ∈ st.books, b.id = id → b.user.apiKey ≠ k) :
    (getPageByBookId allOk st id i k save).res = .ok none :=
  getPageByBookId_res_none allOk st id i k save hcache rfl
    (bookChunkFindOne_eq_none_of_no_owner st id i k howner)

/-- C3 (amended): after a successful `deleteBookById`, a later
`getPageByBookId` returns `null` whenever the cache holds no entry for
the requested page; the deletion itself never touches the cache, so
entries populated before it keep being served until they expire. -/
theorem c3_delete_notfound_without_cache_entry (st : St) (id : Nat) (okey k : String)
    (i : Int) (save : Bool)
    (hdel : (deleteBookById st id okey true).1.2 = true)
    (hcache : cacheGet st.cache (cacheKey id i) = none) :
    (deleteBookById st id okey true).2.cache = st.cache ∧
    (getPageByBookId allOk (deleteBookById st id okey true).2 id i k save).res = .ok none := by
  cases hfb : st.books.find? (fun b => b.id == id && b.user.apiKey == okey) with
  | none =>
    exfalso
    unfold deleteBookById at hdel
    rw [hfb] at hdel
    simp at hdel
  | some book =>
    have hst : (deleteBookById st id okey true).2 =
        { st with
          chunks := st.chunks.filter (fun c => !(c.bookId == id)),
          books := st.books.filter (fun b => !(b.id == book.id)) } := by
      unfold deleteBookById
      rw [hfb]
      rfl
    rw [hst]
    refine ⟨rfl, ?_⟩
    refine getPageByBookId_res_none allOk _ id i k save hcache rfl ?_
    apply bookChunkFindOne_eq_none_of_no_chunk
    intro c hc hcon
    have hm := List.mem_filter.mp hc
    have : (c.bookId == id) = false := by
      cases h : (c.bookId == id) with
      | false => rfl
      | true => rw [h] at hm; simp at hm
    rw [beq_eq_false_iff_ne] at this
    exact this hcon.1

/-- C4 (amended): `createBook` inserts the book row and the chunk rows
as two separate awaited writes with no transaction; when the chunk
insert fails the call errors, the book row remains with no chunks, and
`getBookById` already observes the chunkless document. -/
theorem c4_failed_chunk_insert_leaves_book (st : St) (p : CreateBookDto) (newId : Nat)
    (appUrl : String) (r : SplitResult)
    (hsplit : splitEveryN p.bookText p.user.chunkSize = .ok r)
    (hfresh : ∀ b ∈ st.books, b.id ≠ newId) :
    (createBook st p newId false).1 = .error () ∧
    (createBook st p newId false).2.books = st.books ++ [mkBook p newId r.totalIndex] ∧
    (createBook st p newId false).2.chunks = st.chunks ∧
    (getBookById appUrl (createBook st p newId false).2 newId p.user.apiKey).isSome = true := by
  have hcb : createBook st p newId false =
      (.error (), { st with books := st.books ++ [mkBook p newId r.totalIndex] }) := by
    unfold createBook
    rw [hsplit]
    rfl
  rw [hcb]
  refine ⟨rfl, rfl, rfl, ?_⟩
  unfold getBookById
  have h1 : st.books.find? (fun b => b.id == newId && b.user.apiKey == p.user.apiKey) = none := by
    rw [List.find?_eq_none]
    intro b hb
    simp only [Bool.and_eq_true, beq_iff_eq, not_and]
    intro hid
    exact absurd hid (hfresh b hb)
  have hfind : (st.books ++ [mkBook p newId r.totalIndex]).find?
      (fun b => b.id == newId && b.user.apiKey == p.user.apiKey) =
      some (mkBook p newId r.totalIndex) := by
    rw [List.find?_append, h1]
    simp [mkBook]
  simp only [hfind]
  rfl

/-- C5 (amended): when the requested chunk is resolved (here: from the
cache), an error of the not-awaited read-ahead cache write is swallowed
and the page view is still returned, but an error of the awaited
read-ahead store fetch propagates and fails the whole call. -/
theorem c5_prefetch_fetch_error_propagates (st : St) (id : Nat) (i : Int) (k : String)
    (save : Bool) (c : ChunkWithBook)
    (hhit : cacheGet st.cache (cacheKey id i) = some c)
    (hnmiss : cacheGet st.cache (cacheKey id (i + 1)) = none) :
    (getPageByBookId oNextFail st id i k save).res = .error () ∧
    (getPageByBookId oNextSetFail st id i k save).res = .ok (some (mkDto c i)) := by
  constructor
  · rw [getPageByBookId_hit oNextFail st id i k save c hhit]
    exact afterChunk_res_error_next _ _ _ _ _ _ _ _ rfl rfl hnmiss
  · rw [getPageByBookId_hit oNextSetFail st id i k save c hhit]
    exact afterChunk_res_ok _ _ _ _ _ _ _ _ rfl rfl

/-- C6 (amended): when `saveCurrentPage` is on and the requested page
differs from the `lastIndex` on the chunk's book snapshot, the
last-index update is attempted before returning (it appears in the
trace of both the failing and the successful run), but its failure
fails the whole call; when `saveCurrentPage` is off or the page equals
that `lastIndex`, no update is issued. -/
theorem c6_update_attempted_and_failure_propagates (st : St) (id : Nat) (i : Int)
    (k : String) (c : ChunkWithBook)
    (hhit : cacheGet st.cache (cacheKey id i) = some c) :
    ((i ≠ c.book.lastIndex) →
      (getPageByBookId oUpdFail st id i k true).res = .error () ∧
      Effect.updateLastIndex id i ∈ (getPageByBookId oUpdFail st id i k true).trace ∧
      Effect.updateLastIndex id i ∈ (getPageByBookId allOk st id i k true).trace) ∧
    (∀ save : Bool, (save = false ∨ i = c.book.lastIndex) →
      ∀ (j : Nat) (q : Int),
        Effect.updateLastIndex j q ∉ (getPageByBookId allOk st id i k save).trace) := by
  constructor
  · intro hne
    rw [getPageByBookId_hit oUpdFail st id i k true c hhit,
      getPageByBookId_hit allOk st id i k true c hhit,
      afterChunk_update_branch oUpdFail st id i k c [] hne,
      afterChunk_update_branch allOk st id i k c [] hne]
    refine ⟨rfl, ?_, ?_⟩
    · simp only [show oUpdFail.updateFails = true from rfl, if_true]
      simp
    · simp only [show allOk.updateFails = false from rfl, Bool.false_eq_true, if_false]
      obtain ⟨extra, he, hex⟩ := prefetchStep_trace_extra allOk
        { st with books := updateLastIndexFn st.books id i } id i k c
        ([] ++ [Effect.updateLastIndex id i])
      rw [he]
      simp
  · intro save hsave j q
    rw [getPageByBookId_hit allOk st id i k save c hhit,
      afterChunk_skip_branch allOk st id i k save c [] hsave]
    obtain ⟨extra, he, hex⟩ := prefetchStep_trace_extra allOk st id i k c []
    rw [he]
    intro hmem
    rcases List.mem_append.mp hmem with h | h
    · simp at h
    · have := hex _ h
      simp at this

/-- C7: for every text and every chunk size above zero, concatenating
the split's chunk texts in index order reproduces the text exactly. -/
theorem c7_split_roundtrip (T : String) (S : Nat) (h : 0 < S) :
    ∃ r, splitEveryN T S = .ok r ∧
      String.join (r.chunks.map (fun it => it.chunk)) = T := by
  have hS : ¬ S = 0 := by omega
  unfold splitEveryN
  rw [if_neg hS]
  refine ⟨_, rfl, ?_⟩
  rw [List.map_map]
  unfold List.enum
  rw [show ((fun it => SplitItem.chunk it) ∘
      (fun p : Nat × List Char => ({ chunk := String.mk p.2, index := p.1 } : SplitItem))) =
      (fun p : Nat × List Char => ({ chunk := String.mk p.2, index := p.1 } : SplitItem).chunk)
    from rfl]
  rw [enumFrom_map_chunk]
  rw [join_map_mk]
  rw [rawNE_flatten]

/-- C8: for a document whose chunks occupy exactly the indices
`0 .. count - 1`, requesting page `count` or page `-1` returns `null`
(given no stale cache entry exists under those two keys, which no run
of the service ever writes for nonexistent chunks). -/
theorem c8_out_of_range_not_found (st : St) (id : Nat) (count : Int) (k : String)
    (save : Bool)
    (hchunks : ∀ c ∈ st.chunks, c.bookId = id → 0 ≤ c.index ∧ c.index < count)
    (hc1 : cacheGet st.cache (cacheKey id count) = none)
    (hc2 : cacheGet st.cache (cacheKey id (-1)) = none) :
    (getPageByBookId allOk st id count k save).res = .ok none ∧
    (getPageByBookId allOk st id (-1) k save).res = .ok none := by
  constructor
  · apply getPageByBookId_res_none allOk st id count k save hc1 rfl
    apply bookChunkFindOne_eq_none_of_no_chunk
    intro c hc hcon
    have := hchunks c hc hcon.1
    omega
  · apply getPageByBookId_res_none allOk st id (-1) k save hc2 rfl
    apply bookChunkFindOne_eq_none_of_no_chunk
    intro c hc hcon
    have h := hchunks c hc hcon.1
    have := hcon.2
    omega

/-- C9: on a cache miss for the requested page that is resolved from
the store, the trace holds a cache write for that page's key with the
explicit TTL 3600, every write for that key uses TTL 3600, and every
write for the read-ahead key of page `i + 1` carries no TTL argument. -/
theorem c9_cache_ttl_asymmetry (st : St) (id : Nat) (i : Int) (k : String) (save : Bool)
    (c : ChunkWithBook)
    (hmiss : cacheGet st.cache (cacheKey id i) = none)
    (hfound : bookChunkFindOne st id i k = some c)
    (hkeyne : cacheKey id (i + 1) ≠ cacheKey id i) :
    Effect.cacheSetEff (cacheKey id i) (some 3600) ∈
      (getPageByBookId allOk st id i k save).trace ∧
    (∀ t, Effect.cacheSetEff (cacheKey id i) t ∈
      (getPageByBookId allOk st id i k save).trace → t = some 3600) ∧
    (∀ t, Effect.cacheSetEff (cacheKey id (i + 1)) t ∈
      (getPageByBookId allOk st id i k save).trace → t = none) := by
  rw [getPageByBookId_miss_found allOk st id i k save c hmiss rfl hfound]
  obtain ⟨extra, he, hex⟩ := afterChunk_trace_extra allOk
    (if allOk.mainCacheSetFails then st
      else { st with cache := cacheSet st.cache (cacheKey id i) c (some 3600) })
    id i k save c [Effect.cacheSetEff (cacheKey id i) (some 3600)]
  rw [he]
  refine ⟨by simp, ?_, ?_⟩
  · intro t ht
    rcases List.mem_append.mp ht with h | h
    · rw [List.mem_singleton] at h
      injection h
    · rcases hex _ h with h | h
      · exact absurd h (by intro hc; cases hc)
      · exfalso
        injection h with h1 h2
        exact hkeyne h1.symm
  · intro t ht
    rcases List.mem_append.mp ht with h | h
    · rw [List.mem_singleton] at h
      injection h with h1 h2
      exact absurd h1 hkeyne
    · rcases hex _ h with h | h
      · exact absurd h (by intro hc; cases hc)
      · injection h

/-- C10: the percent expression of `getAll` and `getBookById` divides by
the stored `totalIndex` with no guard, and `createBook` stores
`totalIndex = 0` for every text that fits in one chunk, so the percent
value of such a document is never a finite number. -/
theorem c10_percent_division_by_zero (st : St) (p : CreateBookDto) (newId : Nat)
    (appUrl : String)
    (h0 : 0 < p.user.chunkSize) (hlen : p.bookText.length ≤ p.user.chunkSize)
    (hfresh : ∀ b ∈ st.books, b.id ≠ newId) :
    (∀ li ti : Int, ti = 0 → (percentValue li ti).isFinite = false) ∧
    (createBook st p newId true).1 = .ok newId ∧
    mkBook p newId 1 ∈ (createBook st p newId true).2.books ∧
    (mkBook p newId 1).totalIndex = 0 ∧
    (∃ dto, getBookById appUrl (createBook st p newId true).2 newId p.user.apiKey = some dto ∧
      dto.percent.isFinite = false ∧ dto.totalPage = 0) ∧
    (∀ kq : String, ∀ skip idx : Nat, ∀ bt ct : String,
      (getAllEntry appUrl kq skip idx bt ct (mkBook p newId 1)).percent.isFinite = false) := by
  have hcb : createBook st p newId true =
      (.ok newId,
        { st with
          books := st.books ++ [mkBook p newId 1],
          chunks := st.chunks ++ [{ bookId := newId, index := 0, text := p.bookText }] }) := by
    unfold createBook
    rw [splitEveryN_single p.bookText p.user.chunkSize h0 hlen]
    rfl
  have h1 : st.books.find? (fun b => b.id == newId && b.user.apiKey == p.user.apiKey) = none := by
    rw [List.find?_eq_none]
    intro b hb
    simp only [Bool.and_eq_true, beq_iff_eq, not_and]
    intro hid
    exact absurd hid (hfresh b hb)
  have hfind : (st.books ++ [mkBook p newId 1]).find?
      (fun b => b.id == newId && b.user.apiKey == p.user.apiKey) = some (mkBook p newId 1) := by
    rw [List.find?_append, h1]
    simp [mkBook]
  refine ⟨percentValue_not_finite, ?_, ?_, ?_, ?_, ?_⟩
  · rw [hcb]
  · rw [hcb]
    simp
  · rfl
  · rw [hcb]
    unfold getBookById
    simp only [hfind]
    refine ⟨_, rfl, ?_, ?_⟩
    · exact percentValue_not_finite (mkBook p newId 1).lastIndex (mkBook p newId 1).totalIndex rfl
    · rfl
  · intro kq skip idx bt ct
    exact percentValue_not_finite (mkBook p newId 1).lastIndex (mkBook p newId 1).totalIndex rfl

/-! ## Witnesses -/

/-- The split of the demo text at chunk size 3. -/
def rDemo : SplitResult :=
  { chunks := [{ chunk := "ABC", index := 0 }, { chunk := "DEF", index := 1 },
               { chunk := "GHI", index := 2 }, { chunk := "J", index := 3 }],
    totalIndex := 4 }

/-- The chunk snapshot the owner's read of page 2 caches (its book
snapshot still carries the pre-update `lastIndex` 0). -/
def snapGHI : ChunkWithBook :=
  { chunk := { bookId := 1, index := 2, text := "GHI" },
    book := { id := 1, title := "demo.txt", author := "a", totalIndex := 3,
              lastIndex := 0, user := demoUser } }

/-- The chunk snapshot the read-ahead of page 3 caches (taken after the
last-index update, so its book snapshot carries `lastIndex` 2). -/
def snapJ : ChunkWithBook :=
  { chunk := { bookId := 1, index := 3, text := "J" },
    book := { id := 1, title := "demo.txt", author := "a", totalIndex := 3,
              lastIndex := 2, user := demoUser } }

/-- An upload whose text fits in a single chunk of the demo user. -/
def smallPayload : CreateBookDto :=
  { title := "s.txt", author := "a", bookText := "AB", user := demoUser }

/-- Witness for C1 at the concrete scenario. -/
theorem c1_totalPage_is_chunkCount_pred_witness :
    (splitEveryN demoPayload.bookText demoPayload.user.chunkSize = .ok rDemo ∧
      (∀ b ∈ st0.books, b.id ≠ 1) ∧ (∀ c ∈ st0.chunks, c.bookId ≠ 1) ∧
      cacheGet st0.cache (cacheKey 1 2) = none ∧
      (0 : Int) ≤ 2 ∧ (2 : Int) < (rDemo.chunks.length : Int)) ∧
    ((∃ dto,
      (getPageByBookId allOk (createBook st0 demoPayload 1 true).2 1 2
        demoPayload.user.apiKey true).res = .ok (some dto) ∧
      dto.totalPage = (rDemo.chunks.length : Int) - 1 ∧
      dto.currentPage = 2 ∧ dto.bookId = 1) ∧
    (getPageByBookId allOk stIngested 1 2 "owner-key" true).res = .ok (some dtoGHI)) :=
  ⟨⟨by decide, by decide, by decide, by decide, by decide, by decide⟩,
    c1_totalPage_is_chunkCount_pred st0 demoPayload 1 2 rDemo (by decide) (by decide)
      (by decide) (by decide) (by decide) (by decide)⟩

/-- Witness for C2: the intruder gets `null` when the cache is cold. -/
theorem c2_not_found_without_cache_entry_witness :
    (cacheGet stIngested.cache (cacheKey 1 0) = none ∧
      (∀ b ∈ stIngested.books, b.id = 1 → b.user.apiKey ≠ "intruder")) ∧
    (getPageByBookId allOk stIngested 1 0 "intruder" true).res = .ok none :=
  ⟨⟨by decide, by decide⟩,
    c2_not_found_without_cache_entry stIngested 1 0 "intruder" true (by decide) (by decide)⟩

/-- Witness for C3: after deletion, a page with no cache entry is gone. -/
theorem c3_delete_notfound_without_cache_entry_witness :
    ((deleteBookById stWarm 1 "owner-key" true).1.2 = true ∧
      cacheGet stWarm.cache (cacheKey 1 5) = none) ∧
    ((deleteBookById stWarm 1 "owner-key" true).2.cache = stWarm.cache ∧
      (getPageByBookId allOk (deleteBookById stWarm 1 "owner-key" true).2
        1 5 "owner-key" true).res = .ok none) :=
  ⟨⟨by decide, by decide⟩,
    c3_delete_notfound_without_cache_entry stWarm 1 "owner-key" "owner-key" 5 true
      (by decide) (by decide)⟩

/-- Witness for C4 at the demo payload. -/
theorem c4_failed_chunk_insert_leaves_book_witness :
    (splitEveryN demoPayload.bookText demoPayload.user.chunkSize = .ok rDemo ∧
      (∀ b ∈ st0.books, b.id ≠ 1)) ∧
    ((createBook st0 demoPayload 1 false).1 = .error () ∧
      (createBook st0 demoPayload 1 false).2.books = st0.books ++ [mkBook demoPayload 1 rDemo.totalIndex] ∧
      (createBook st0 demoPayload 1 false).2.chunks = st0.chunks ∧
      (getBookById "https://app" (createBook st0 demoPayload 1 false).2
        1 demoPayload.user.apiKey).isSome = true) :=
  ⟨⟨by decide, by decide⟩,
    c4_failed_chunk_insert_leaves_book st0 demoPayload 1 "https://app" rDemo
      (by decide) (by decide)⟩

/-- Witness for C5 at the warmed cache entry for page 3. -/
theorem c5_prefetch_fetch_error_propagates_witness :
    (cacheGet stWarm.cache (cacheKey 1 3) = some snapJ ∧
      cacheGet stWarm.cache (cacheKey 1 (3 + 1)) = none) ∧
    ((getPageByBookId oNextFail stWarm 1 3 "owner-key" true).res = .error () ∧
      (getPageByBookId oNextSetFail stWarm 1 3 "owner-key" true).res =
        .ok (some (mkDto snapJ 3))) :=
  ⟨⟨by decide, by decide⟩,
    c5_prefetch_fetch_error_propagates stWarm 1 3 "owner-key" true snapJ
      (by decide) (by decide)⟩

/-- Witness for C6 at the warmed cache entry for page 2. -/
theorem c6_update_attempted_and_failure_propagates_witness :
    (cacheGet stWarm.cache (cacheKey 1 2) = some snapGHI) ∧
    (((2 : Int) ≠ snapGHI.book.lastIndex →
      (getPageByBookId oUpdFail stWarm 1 2 "owner-key" true).res = .error () ∧
      Effect.updateLastIndex 1 2 ∈ (getPageByBookId oUpdFail stWarm 1 2 "owner-key" true).trace ∧
      Effect.updateLastIndex 1 2 ∈ (getPageByBookId allOk stWarm 1 2 "owner-key" true).trace) ∧
    (∀ save : Bool, (save = false ∨ (2 : Int) = snapGHI.book.lastIndex) →
      ∀ (j : Nat) (q : Int),
        Effect.updateLastIndex j q ∉ (getPageByBookId allOk stWarm 1 2 "owner-key" save).trace)) :=
  ⟨by decide,
    c6_update_attempted_and_failure_propagates stWarm 1 2 "owner-key" snapGHI (by decide)⟩

/-- Witness for C7 at the demo text and chunk size 3. -/
theorem c7_split_roundtrip_witness :
    0 < 3 ∧
    ∃ r, splitEveryN "ABCDEFGHIJ" 3 = .ok r ∧
      String.join (r.chunks.map (fun it => it.chunk)) = "ABCDEFGHIJ" :=
  ⟨by decide, c7_split_roundtrip "ABCDEFGHIJ" 3 (by decide)⟩

/-- Witness for C8 at the ingested demo book (4 chunks at indices
0 to 3). -/
theorem c8_out_of_range_not_found_witness :
    ((∀ c ∈ stIngested.chunks, c.bookId = 1 → 0 ≤ c.index ∧ c.index < 4) ∧
      cacheGet stIngested.cache (cacheKey 1 4) = none ∧
      cacheGet stIngested.cache (cacheKey 1 (-1)) = none) ∧
    ((getPageByBookId allOk stIngested 1 4 "owner-key" true).res = .ok none ∧
      (getPageByBookId allOk stIngested 1 (-1) "owner-key" true).res = .ok none) :=
  ⟨⟨by decide, by decide, by decide⟩,
    c8_out_of_range_not_found stIngested 1 4 "owner-key" true
      (by decide) (by decide) (by decide)⟩

/-- Witness for C9 at the cold-cache read of page 2. -/
theorem c9_cache_ttl_asymmetry_witness :
    (cacheGet stIngested.cache (cacheKey 1 2) = none ∧
      bookChunkFindOne stIngested 1 2 "owner-key" = some snapGHI ∧
      cacheKey 1 (2 + 1) ≠ cacheKey 1 2) ∧
    (Effect.cacheSetEff (cacheKey 1 2) (some 3600) ∈
      (getPageByBookId allOk stIngested 1 2 "owner-key" true).trace ∧
    (∀ t, Effect.cacheSetEff (cacheKey 1 2) t ∈
      (getPageByBookId allOk stIngested 1 2 "owner-key" true).trace → t = some 3600) ∧
    (∀ t, Effect.cacheSetEff (cacheKey 1 (2 + 1)) t ∈
      (getPageByBookId allOk stIngested 1 2 "owner-key" true).trace → t = none)) :=
  ⟨⟨by decide, by decide, by decide⟩,
    c9_cache_ttl_asymmetry stIngested 1 2 "owner-key" true snapGHI
      (by decide) (by decide) (by decide)⟩

/-- Witness for C10 at a two-character upload with chunk size 3. -/
theorem c10_percent_division_by_zero_witness :
    (0 < smallPayload.user.chunkSize ∧
      smallPayload.bookText.length ≤ smallPayload.user.chunkSize ∧
      (∀ b ∈ st0.books, b.id ≠ 1)) ∧
    ((∀ li ti : Int, ti = 0 → (percentValue li ti).isFinite = false) ∧
      (createBook st0 smallPayload 1 true).1 = .ok 1 ∧
      mkBook smallPayload 1 1 ∈ (createBook st0 smallPayload 1 true).2.books ∧
      (mkBook smallPayload 1 1).totalIndex = 0 ∧
      (∃ dto, getBookById "https://app" (createBook st0 smallPayload 1 true).2
          1 smallPayload.user.apiKey = some dto ∧
        dto.percent.isFinite = false ∧ dto.totalPage = 0) ∧
      (∀ kq : String, ∀ skip idx : Nat, ∀ bt ct : String,
        (getAllEntry "https://app" kq skip idx bt ct (mkBook smallPayload 1 1)).percent.isFinite
          = false)) :=
  ⟨⟨by decide, by decide, by decide⟩,
    c10_percent_division_by_zero st0 smallPayload 1 "https://app"
      (by decide) (by decide) (by decide)⟩
